import Mathlib

/-!
Verification of `precalculate.py` (class `Precalculator`): a component that
precomputes expensive-to-create objects in a creation thread pool, hands them
to consumers through a ready queue, and defers destruction to a destruction
thread pool.

The embedding is a state machine.  Payload objects are identified by the
order in which their construction completed (`nextId` counts successful
constructions, so the objects ever constructed are exactly the ids
`0, ..., nextId - 1`).  Each thread pool is modelled by the spec's Execution
Pool abstraction (the pools themselves are external collaborators, not code
of this repository): a pool holds the tasks submitted to it but not yet run
(`pendingCreates` as a count, `pendingDestroys` as the list of objects whose
destruction was submitted), a closed flag (`close` semantics: stop accepting
work; `apply_async` on a closed pool raises `ValueError`), and workers run
pending tasks one at a time (`runCreateTask` / `runDestroyTask`); a pool of
width 0 has no workers, so its tasks never run.  `join` runs every pending
task to completion.
-/

/-- State of a `Precalculator` instance together with its two pools and the
ready queue, plus ghost bookkeeping (`nextId`, `destroyed`) recording which
objects were ever constructed and which destructor runs happened. -/
structure PState where
  createWidth : Nat
  destroyWidth : Nat
  createClosed : Bool
  destroyClosed : Bool
  pendingCreates : Nat
  queue : List Nat
  pendingDestroys : List Nat
  nextId : Nat
  destroyed : List Nat
  deriving Repr, DecidableEq

namespace Precalculator

/-- Embedding of `Precalculator._precalc`: submit one construction task to the
creation pool (`self._create_pool.apply_async(self._constructor,
callback=self._queue.put)`).  Submission to a closed pool raises. -/
def precalc (s : PState) : Except String PState :=
  if s.createClosed then Except.error "ValueError: Pool not running"
  else Except.ok { s with pendingCreates := s.pendingCreates + 1 }

/-- The state built by `Precalculator.__init__`: both pools freshly allocated
(open, no pending tasks) and `self._queue = Queue()` empty. -/
def initState (numCreateThreads numDestroyThreads : Nat) : PState :=
  { createWidth := numCreateThreads
    destroyWidth := numDestroyThreads
    createClosed := false
    destroyClosed := false
    pendingCreates := 0
    queue := []
    pendingDestroys := []
    nextId := 0
    destroyed := [] }

/-- The seed loop of `Precalculator.create`:
`for i in range(num_create_threads): precalc._precalc()`. -/
def seed : Nat → PState → PState
  | 0, s => s
  | k + 1, s =>
    match precalc s with
    | Except.ok s' => seed k s'
    | Except.error _ => s

/-- Embedding of the classmethod `Precalculator.create` applied to explicit
widths: allocate the two pools and the queue, then submit
`num_create_threads` construction tasks. -/
def create (numCreateThreads numDestroyThreads : Nat) : PState :=
  seed numCreateThreads (initState numCreateThreads numDestroyThreads)

/-- A worker of the creation pool runs one submitted construction task.
`ok = true` means the constructor returned a value: the pool then invokes the
completion callback `self._queue.put`, so a fresh object (id `nextId`) is
appended to the ready queue.  `ok = false` means the constructor raised: with
no `error_callback` given to `apply_async`, the exception is kept inside the
`AsyncResult` that `_precalc` discarded, so nothing at all happens to the
coordinator state.  A pool of width 0 has no worker threads, so no task can
run. -/
def runCreateTask (ok : Bool) (s : PState) : PState :=
  if s.createWidth = 0 then s
  else if s.pendingCreates = 0 then s
  else
    let s' := { s with pendingCreates := s.pendingCreates - 1 }
    if ok then
      { s' with queue := s'.queue ++ [s'.nextId], nextId := s'.nextId + 1 }
    else s'

/-- Embedding of `ThreadPool.join` on the creation pool: every pending
construction task is run, with the listed constructor outcomes.  A genuine
join corresponds to `outs.length = s.pendingCreates`. -/
def joinCreates (outs : List Bool) (s : PState) : PState :=
  outs.foldl (fun t ok => runCreateTask ok t) s

/-- Embedding of `Precalculator.get`: `self._precalc()` then
`return self._queue.get()`.  The result is `Except.error` when the submission
raises (creation pool closed), `Except.ok none` when the queue is empty and
the call blocks, and `Except.ok (some (o, s'))` when object `o` is popped. -/
def get (s : PState) : Except String (Option (Nat × PState)) :=
  match precalc s with
  | Except.error e => Except.error e
  | Except.ok s1 =>
    match s1.queue with
    | [] => Except.ok none
    | o :: rest => Except.ok (some (o, { s1 with queue := rest }))

/-- Embedding of `Precalculator.destroy`:
`self._destroy_pool.apply_async(self._destructor, (obj,))` — submit one
destruction task carrying `obj` and return at once. -/
def destroy (obj : Nat) (s : PState) : Except String PState :=
  if s.destroyClosed then Except.error "ValueError: Pool not running"
  else Except.ok { s with pendingDestroys := s.pendingDestroys ++ [obj] }

/-- A worker of the destruction pool runs one submitted destruction task: the
destructor is invoked on the oldest submitted object, recorded in
`destroyed`. -/
def runDestroyTask (s : PState) : PState :=
  match s.pendingDestroys with
  | [] => s
  | o :: rest => { s with pendingDestroys := rest, destroyed := s.destroyed ++ [o] }

/-- Embedding of `ThreadPool.join` on the destruction pool: run every pending
destruction task. -/
def joinDestroys (s : PState) : PState :=
  runDestroyTask^[s.pendingDestroys.length] s

/-- One iteration of the drain loop in `Precalculator.stop`:
`self.destroy(self._queue.get())` while the queue is nonempty. -/
def drainStep (s : PState) : PState :=
  match s.queue with
  | [] => s
  | o :: rest =>
    match destroy o { s with queue := rest } with
    | Except.ok s' => s'
    | Except.error _ => { s with queue := rest }

/-- The drain loop of `Precalculator.stop`:
`while self._queue.qsize(): self.destroy(self._queue.get())`. -/
def drainQueue (s : PState) : PState :=
  drainStep^[s.queue.length] s

/-- Embedding of `Precalculator.stop`: close the creation pool, join it (the
listed outcomes are the results of the still-pending constructions), drain
the ready queue into the destruction pool, close the destruction pool, join
it. -/
def stop (outs : List Bool) (s : PState) : PState :=
  let s1 := { s with createClosed := true }
  let s2 := joinCreates outs s1
  let s3 := drainQueue s2
  let s4 := { s3 with destroyClosed := true }
  joinDestroys s4

end Precalculator

namespace Precalculator

/-- Atomic events that can occur while an instance is running, for reasoning
about arbitrary interleavings: a creation-pool worker completes a
construction successfully, a caller performs `get()` immediately followed by
`destroy()` of the returned object, or a destruction-pool worker runs one
destructor. -/
inductive Ev where
  | createOk : Ev
  | getDestroy : Ev
  | destroyRun : Ev
  deriving Repr, DecidableEq

/-- Effect of one event on the state.  A `getDestroy` event is the
composition of the source's `get` and `destroy`; if `get` blocks or raises
the event is a no-op (such events are excluded by `validFrom`). -/
def runEv : Ev → PState → PState
  | Ev.createOk, s => runCreateTask true s
  | Ev.getDestroy, s =>
    match get s with
    | Except.ok (some (o, s1)) =>
      match destroy o s1 with
      | Except.ok s2 => s2
      | Except.error _ => s1
    | _ => s
  | Ev.destroyRun, s => runDestroyTask s

/-- Run a whole sequence of events. -/
def runTrace : List Ev → PState → PState
  | [], s => s
  | e :: t, s => runTrace t (runEv e s)

/-- An event is enabled: a construction can only complete if one is pending,
a `get` only returns if the queue is nonempty, a destructor only runs if a
destruction was submitted. -/
def evOk : Ev → PState → Bool
  | Ev.createOk, s => decide (s.pendingCreates ≠ 0)
  | Ev.getDestroy, s => !s.queue.isEmpty
  | Ev.destroyRun, s => !s.pendingDestroys.isEmpty

/-- Every event of the trace is enabled when it fires. -/
def validFrom : PState → List Ev → Bool
  | _, [] => true
  | s, e :: t => evOk e s && validFrom (runEv e s) t

/-- Number of completed `get()` calls (each followed by `destroy()`) in a
trace. -/
def numGets : List Ev → Nat
  | [] => 0
  | Ev.getDestroy :: t => numGets t + 1
  | _ :: t => numGets t

theorem seed_eq : ∀ (k : Nat) (cw dw : Nat) (dc : Bool) (p : Nat)
    (q pd : List Nat) (nid : Nat) (dd : List Nat),
    seed k ⟨cw, dw, false, dc, p, q, pd, nid, dd⟩ =
      ⟨cw, dw, false, dc, p + k, q, pd, nid, dd⟩
  | 0, cw, dw, dc, p, q, pd, nid, dd => by simp [seed]
  | k + 1, cw, dw, dc, p, q, pd, nid, dd => by
    have ih := seed_eq k cw dw dc (p + 1) q pd nid dd
    simp only [seed, precalc, Bool.false_eq_true, if_false, ih]
    simp only [PState.mk.injEq, and_true, true_and]
    omega

theorem create_eq (n m : Nat) :
    create n m = ⟨n, m, false, false, n, [], [], 0, []⟩ := by
  simp [create, initState, seed_eq]

end Precalculator

namespace Precalculator

theorem joinCreates_replicate_eq : ∀ (p : Nat) (cw dw : Nat) (cc dc : Bool)
    (q pd : List Nat) (nid : Nat) (dd : List Nat), cw ≠ 0 →
    joinCreates (List.replicate p true) ⟨cw, dw, cc, dc, p, q, pd, nid, dd⟩ =
      ⟨cw, dw, cc, dc, 0, q ++ List.range' nid p, pd, nid + p, dd⟩
  | 0, cw, dw, cc, dc, q, pd, nid, dd, hcw => by
    simp [joinCreates]
  | p + 1, cw, dw, cc, dc, q, pd, nid, dd, hcw => by
    have ih := joinCreates_replicate_eq p cw dw cc dc (q ++ [nid]) pd (nid + 1) dd hcw
    have hstep : runCreateTask true ⟨cw, dw, cc, dc, p + 1, q, pd, nid, dd⟩ =
        ⟨cw, dw, cc, dc, p, q ++ [nid], pd, nid + 1, dd⟩ := by
      simp [runCreateTask, hcw]
    simp only [joinCreates, List.replicate_succ, List.foldl_cons] at ih ⊢
    rw [hstep, ih]
    simp only [PState.mk.injEq, List.append_assoc, List.singleton_append,
      List.range'_succ, true_and, and_true]
    omega

theorem drainQueue_eq : ∀ (q : List Nat) (cw dw : Nat) (cc : Bool) (p : Nat)
    (pd : List Nat) (nid : Nat) (dd : List Nat),
    drainQueue ⟨cw, dw, cc, false, p, q, pd, nid, dd⟩ =
      ⟨cw, dw, cc, false, p, [], pd ++ q, nid, dd⟩
  | [], cw, dw, cc, p, pd, nid, dd => by simp [drainQueue]
  | o :: rest, cw, dw, cc, p, pd, nid, dd => by
    have ih := drainQueue_eq rest cw dw cc p (pd ++ [o]) nid dd
    have hstep : drainStep ⟨cw, dw, cc, false, p, o :: rest, pd, nid, dd⟩ =
        ⟨cw, dw, cc, false, p, rest, pd ++ [o], nid, dd⟩ := by
      simp [drainStep, destroy]
    show drainStep^[(o :: rest).length] _ = _
    rw [List.length_cons, Function.iterate_succ_apply, hstep]
    rw [show drainStep^[rest.length]
        (⟨cw, dw, cc, false, p, rest, pd ++ [o], nid, dd⟩ : PState) =
        drainQueue ⟨cw, dw, cc, false, p, rest, pd ++ [o], nid, dd⟩ from rfl]
    rw [ih]
    simp

theorem joinDestroys_eq : ∀ (pd : List Nat) (cw dw : Nat) (cc dc : Bool)
    (p : Nat) (q : List Nat) (nid : Nat) (dd : List Nat),
    joinDestroys ⟨cw, dw, cc, dc, p, q, pd, nid, dd⟩ =
      ⟨cw, dw, cc, dc, p, q, [], nid, dd ++ pd⟩
  | [], cw, dw, cc, dc, p, q, nid, dd => by simp [joinDestroys]
  | o :: rest, cw, dw, cc, dc, p, q, nid, dd => by
    have ih := joinDestroys_eq rest cw dw cc dc p q nid (dd ++ [o])
    have hstep : runDestroyTask ⟨cw, dw, cc, dc, p, q, o :: rest, nid, dd⟩ =
        ⟨cw, dw, cc, dc, p, q, rest, nid, dd ++ [o]⟩ := by
      simp [runDestroyTask]
    show runDestroyTask^[(o :: rest).length] _ = _
    rw [List.length_cons, Function.iterate_succ_apply, hstep]
    rw [show runDestroyTask^[rest.length]
        (⟨cw, dw, cc, dc, p, q, rest, nid, dd ++ [o]⟩ : PState) =
        joinDestroys ⟨cw, dw, cc, dc, p, q, rest, nid, dd ++ [o]⟩ from rfl]
    rw [ih]
    simp

theorem iterate_pres {α : Type} {f : PState → PState} {g : PState → α}
    (h : ∀ s, g (f s) = g s) : ∀ (n : Nat) (s : PState), g (f^[n] s) = g s
  | 0, s => rfl
  | n + 1, s => by
    rw [Function.iterate_succ_apply, iterate_pres h n (f s), h]

theorem runCreateTask_createClosed (ok : Bool) (s : PState) :
    (runCreateTask ok s).createClosed = s.createClosed := by
  unfold runCreateTask
  repeat' split
  all_goals rfl

theorem runDestroyTask_createClosed (s : PState) :
    (runDestroyTask s).createClosed = s.createClosed := by
  unfold runDestroyTask
  repeat' split
  all_goals rfl

theorem runDestroyTask_destroyClosed (s : PState) :
    (runDestroyTask s).destroyClosed = s.destroyClosed := by
  unfold runDestroyTask
  repeat' split
  all_goals rfl

theorem drainStep_createClosed (s : PState) :
    (drainStep s).createClosed = s.createClosed := by
  cases hq : s.queue with
  | nil => simp [drainStep, hq]
  | cons o rest =>
    by_cases hd : s.destroyClosed = true <;>
      simp [drainStep, hq, destroy, hd]

theorem joinCreates_createClosed : ∀ (outs : List Bool) (s : PState),
    (joinCreates outs s).createClosed = s.createClosed
  | [], s => rfl
  | ok :: outs, s => by
    show (joinCreates outs (runCreateTask ok s)).createClosed = _
    rw [joinCreates_createClosed outs (runCreateTask ok s),
      runCreateTask_createClosed]

theorem stop_createClosed (outs : List Bool) (s : PState) :
    (stop outs s).createClosed = true := by
  unfold stop joinDestroys drainQueue
  rw [iterate_pres runDestroyTask_createClosed]
  show (drainStep^[_] _).createClosed = true
  rw [iterate_pres drainStep_createClosed, joinCreates_createClosed]

theorem stop_destroyClosed (outs : List Bool) (s : PState) :
    (stop outs s).destroyClosed = true := by
  unfold stop joinDestroys
  rw [iterate_pres runDestroyTask_destroyClosed]

end Precalculator

namespace Precalculator

/-- Running-phase invariant, relative to the creation width `N` and the
number `g` of completed `get`/`destroy` cycles so far: both pools are open,
the creation width is `N`, completed constructions plus pending construction
tasks number `N + g`, and every object ever constructed sits in exactly one
of the ready queue, the pending destructions, and the destroyed record. -/
def Inv (N g : Nat) (s : PState) : Prop :=
  s.createClosed = false ∧ s.destroyClosed = false ∧ s.createWidth = N ∧
  s.nextId + s.pendingCreates = N + g ∧
  (s.queue : Multiset Nat) + (s.pendingDestroys : Multiset Nat) +
    (s.destroyed : Multiset Nat) = Multiset.range s.nextId

theorem runEv_inv {N g : Nat} (hN : N ≠ 0) (e : Ev) (s : PState)
    (hInv : Inv N g s) (hok : evOk e s = true) :
    Inv N (g + numGets [e]) (runEv e s) := by
  obtain ⟨hcc, hdc, hcw, hcount, hms⟩ := hInv
  obtain ⟨cw, dw, cc, dc, p, q, pd, nid, dd⟩ := s
  dsimp only at hcc hdc hcw hcount hms hok
  subst hcc hdc
  have hcw0 : cw ≠ 0 := by rw [hcw]; exact hN
  cases e with
  | createOk =>
    have hp : p ≠ 0 := by simpa [evOk] using hok
    have hrun : runEv Ev.createOk ⟨cw, dw, false, false, p, q, pd, nid, dd⟩ =
        ⟨cw, dw, false, false, p - 1, q ++ [nid], pd, nid + 1, dd⟩ := by
      simp [runEv, runCreateTask, hcw0, hp]
    rw [hrun]
    refine ⟨rfl, rfl, hcw, by dsimp only; simp only [numGets]; omega, ?_⟩
    show (↑(q ++ [nid]) : Multiset Nat) + ↑pd + ↑dd = Multiset.range (nid + 1)
    calc (↑(q ++ [nid]) : Multiset Nat) + ↑pd + ↑dd
        = ((↑q : Multiset Nat) + ↑pd + ↑dd) + {nid} := by
          rw [← Multiset.coe_add, Multiset.coe_singleton]; abel
      _ = Multiset.range nid + {nid} := by rw [hms]
      _ = Multiset.range (nid + 1) := by
          rw [add_comm, Multiset.singleton_add, Multiset.range_succ]
  | getDestroy =>
    cases q with
    | nil => simp [evOk] at hok
    | cons o rest =>
      have hrun : runEv Ev.getDestroy ⟨cw, dw, false, false, p, o :: rest, pd, nid, dd⟩ =
          ⟨cw, dw, false, false, p + 1, rest, pd ++ [o], nid, dd⟩ := by
        simp [runEv, get, precalc, destroy]
      rw [hrun]
      refine ⟨rfl, rfl, hcw, by dsimp only; simp only [numGets]; omega, ?_⟩
      show (↑rest : Multiset Nat) + ↑(pd ++ [o]) + ↑dd = Multiset.range nid
      calc (↑rest : Multiset Nat) + ↑(pd ++ [o]) + ↑dd
          = ({o} + (↑rest : Multiset Nat)) + ↑pd + ↑dd := by
            rw [← Multiset.coe_add, Multiset.coe_singleton]; abel
        _ = (↑(o :: rest) : Multiset Nat) + ↑pd + ↑dd := by
            rw [Multiset.singleton_add, Multiset.cons_coe]
        _ = Multiset.range nid := hms
  | destroyRun =>
    cases pd with
    | nil => simp [evOk] at hok
    | cons o pr =>
      have hrun : runEv Ev.destroyRun ⟨cw, dw, false, false, p, q, o :: pr, nid, dd⟩ =
          ⟨cw, dw, false, false, p, q, pr, nid, dd ++ [o]⟩ := by
        simp [runEv, runDestroyTask]
      rw [hrun]
      refine ⟨rfl, rfl, hcw, by dsimp only; simp only [numGets]; omega, ?_⟩
      show (↑q : Multiset Nat) + ↑pr + ↑(dd ++ [o]) = Multiset.range nid
      calc (↑q : Multiset Nat) + ↑pr + ↑(dd ++ [o])
          = (↑q : Multiset Nat) + ({o} + ↑pr) + ↑dd := by
            rw [← Multiset.coe_add, Multiset.coe_singleton]; abel
        _ = (↑q : Multiset Nat) + ↑(o :: pr) + ↑dd := by
            rw [Multiset.singleton_add, Multiset.cons_coe]
        _ = Multiset.range nid := hms

theorem runTrace_inv {N : Nat} (hN : N ≠ 0) :
    ∀ (t : List Ev) (s : PState) (g : Nat), Inv N g s →
    validFrom s t = true → Inv N (g + numGets t) (runTrace t s)
  | [], s, g, hInv, _ => by simpa [runTrace, numGets] using hInv
  | e :: t, s, g, hInv, hv => by
    rw [validFrom, Bool.and_eq_true] at hv
    have h1 := runEv_inv hN e s hInv hv.1
    have h2 := runTrace_inv hN t (runEv e s) (g + numGets [e]) h1 hv.2
    have harith : g + numGets [e] + numGets t = g + numGets (e :: t) := by
      cases e <;> (simp only [numGets]; omega)
    rw [harith] at h2
    exact h2

end Precalculator

namespace Precalculator

theorem range_append_range' (a b : Nat) :
    List.range a ++ List.range' a b = List.range (a + b) := by
  have h := List.range'_append 0 a b 1
  simp only [Nat.zero_add, Nat.one_mul] at h
  rw [List.range_eq_range', List.range_eq_range', Nat.add_comm a b, ← h]

/-- C1: for an instance created with creation width `N ≥ 1`, after any valid
interleaving of successful construction completions, `get`-then-`destroy`
cycles (`K = numGets t` of them) and destructor runs, `stop` — whose join
completes every still-pending construction — returns with exactly `N + K`
objects ever constructed and with the destroyed record a permutation of all
of them: every object the instance ever constructed is destroyed exactly
once, either by the explicit `destroy` or by the drain step. -/
theorem stop_destroys_every_object (N m : Nat) (hN : 0 < N) (t : List Ev)
    (hv : validFrom (create N m) t = true) :
    (stop (List.replicate (runTrace t (create N m)).pendingCreates true)
        (runTrace t (create N m))).nextId = N + numGets t ∧
    ((stop (List.replicate (runTrace t (create N m)).pendingCreates true)
        (runTrace t (create N m))).destroyed).Perm
      (List.range (N + numGets t)) := by
  have hN0 : N ≠ 0 := by omega
  have hInv0 : Inv N 0 (create N m) := by
    rw [create_eq]
    exact ⟨rfl, rfl, rfl, by dsimp only; omega, by simp⟩
  have hInv := runTrace_inv hN0 t (create N m) 0 hInv0 hv
  rw [Nat.zero_add] at hInv
  revert hInv
  generalize runTrace t (create N m) = s
  intro hInv
  obtain ⟨hcc, hdc, hcw, hcount, hms⟩ := hInv
  obtain ⟨cw, dw, cc, dc, p, q, pd, nid, dd⟩ := s
  dsimp only at hcc hdc hcw hcount hms ⊢
  subst hcc hdc
  have hcw0 : cw ≠ 0 := by rw [hcw]; exact hN0
  have h2 := joinCreates_replicate_eq p cw dw true false q pd nid dd hcw0
  have h3 := drainQueue_eq (q ++ List.range' nid p) cw dw true 0 pd (nid + p) dd
  have h5 := joinDestroys_eq (pd ++ (q ++ List.range' nid p)) cw dw true true 0 []
    (nid + p) dd
  have hstop : stop (List.replicate p true)
      (⟨cw, dw, false, false, p, q, pd, nid, dd⟩ : PState) =
      ⟨cw, dw, true, true, 0, [], [], nid + p,
        dd ++ (pd ++ (q ++ List.range' nid p))⟩ := by
    show joinDestroys { drainQueue (joinCreates (List.replicate p true)
        { (⟨cw, dw, false, false, p, q, pd, nid, dd⟩ : PState) with
          createClosed := true }) with destroyClosed := true } = _
    rw [show joinCreates (List.replicate p true)
        { (⟨cw, dw, false, false, p, q, pd, nid, dd⟩ : PState) with
          createClosed := true } =
        (⟨cw, dw, true, false, 0, q ++ List.range' nid p, pd, nid + p, dd⟩ :
          PState) from h2]
    rw [show drainQueue
        (⟨cw, dw, true, false, 0, q ++ List.range' nid p, pd, nid + p, dd⟩ :
          PState) =
        (⟨cw, dw, true, false, 0, [], pd ++ (q ++ List.range' nid p), nid + p,
          dd⟩ : PState) from h3]
    exact h5
  rw [hstop]
  refine ⟨by dsimp only; omega, ?_⟩
  show (dd ++ (pd ++ (q ++ List.range' nid p))).Perm (List.range (N + numGets t))
  rw [← hcount, ← Multiset.coe_eq_coe, ← range_append_range' nid p,
    ← Multiset.coe_add, ← Multiset.coe_add, ← Multiset.coe_add,
    ← Multiset.coe_add, Multiset.coe_range, ← hms]
  abel

/-- Witness for C1 at `N = 2`, `K = 10` (the spec's concrete scenario). -/
theorem stop_destroys_every_object_witness :
    0 < 2 ∧
    validFrom (create 2 1)
      (List.replicate 10 [Ev.createOk, Ev.getDestroy]).flatten = true ∧
    ((stop (List.replicate
        (runTrace (List.replicate 10 [Ev.createOk, Ev.getDestroy]).flatten
          (create 2 1)).pendingCreates true)
        (runTrace (List.replicate 10 [Ev.createOk, Ev.getDestroy]).flatten
          (create 2 1))).nextId =
      2 + numGets (List.replicate 10 [Ev.createOk, Ev.getDestroy]).flatten ∧
    ((stop (List.replicate
        (runTrace (List.replicate 10 [Ev.createOk, Ev.getDestroy]).flatten
          (create 2 1)).pendingCreates true)
        (runTrace (List.replicate 10 [Ev.createOk, Ev.getDestroy]).flatten
          (create 2 1))).destroyed).Perm
      (List.range
        (2 + numGets (List.replicate 10 [Ev.createOk, Ev.getDestroy]).flatten))) :=
  ⟨by decide, by decide,
    stop_destroys_every_object 2 1 (by decide)
      (List.replicate 10 [Ev.createOk, Ev.getDestroy]).flatten (by decide)⟩

end Precalculator

namespace Precalculator

theorem runCreateTask_createWidth (ok : Bool) (s : PState) :
    (runCreateTask ok s).createWidth = s.createWidth := by
  unfold runCreateTask
  repeat' split
  all_goals rfl

theorem runCreateTask_destroyClosed (ok : Bool) (s : PState) :
    (runCreateTask ok s).destroyClosed = s.destroyClosed := by
  unfold runCreateTask
  repeat' split
  all_goals rfl

theorem runCreateTask_pendingDestroys (ok : Bool) (s : PState) :
    (runCreateTask ok s).pendingDestroys = s.pendingDestroys := by
  unfold runCreateTask
  repeat' split
  all_goals rfl

theorem runCreateTask_destroyed (ok : Bool) (s : PState) :
    (runCreateTask ok s).destroyed = s.destroyed := by
  unfold runCreateTask
  repeat' split
  all_goals rfl

theorem runCreateTask_pendingCreates (ok : Bool) (s : PState)
    (h : s.createWidth ≠ 0) :
    (runCreateTask ok s).pendingCreates = s.pendingCreates - 1 := by
  by_cases h0 : s.pendingCreates = 0 <;> cases ok <;>
    (simp [runCreateTask, h, h0]; try omega)

theorem joinCreates_pres {α : Type} (g : PState → α)
    (h : ∀ (ok : Bool) (s : PState), g (runCreateTask ok s) = g s) :
    ∀ (outs : List Bool) (s : PState), g (joinCreates outs s) = g s
  | [], _ => rfl
  | ok :: outs, s => by
    show g (joinCreates outs (runCreateTask ok s)) = g s
    rw [joinCreates_pres g h outs (runCreateTask ok s), h]

theorem joinCreates_pendingCreates : ∀ (outs : List Bool) (s : PState),
    s.createWidth ≠ 0 →
    (joinCreates outs s).pendingCreates = s.pendingCreates - outs.length
  | [], s, _ => by simp [joinCreates]
  | ok :: outs, s, h => by
    show (joinCreates outs (runCreateTask ok s)).pendingCreates = _
    rw [joinCreates_pendingCreates outs (runCreateTask ok s)
        (by rw [runCreateTask_createWidth]; exact h),
      runCreateTask_pendingCreates ok s h]
    simp only [List.length_cons]
    omega

theorem drainQueue_spec (s : PState) (h : s.destroyClosed = false) :
    (drainQueue s).queue = [] ∧
    (drainQueue s).pendingDestroys = s.pendingDestroys ++ s.queue ∧
    (drainQueue s).destroyed = s.destroyed ∧
    (drainQueue s).createClosed = s.createClosed ∧
    (drainQueue s).destroyClosed = s.destroyClosed ∧
    (drainQueue s).pendingCreates = s.pendingCreates ∧
    (drainQueue s).nextId = s.nextId := by
  obtain ⟨cw, dw, cc, dc, p, q, pd, nid, dd⟩ := s
  dsimp only at h
  subst h
  rw [drainQueue_eq]
  exact ⟨rfl, rfl, rfl, rfl, rfl, rfl, rfl⟩

theorem joinDestroys_spec (s : PState) :
    (joinDestroys s).pendingDestroys = [] ∧
    (joinDestroys s).destroyed = s.destroyed ++ s.pendingDestroys ∧
    (joinDestroys s).queue = s.queue ∧
    (joinDestroys s).createClosed = s.createClosed ∧
    (joinDestroys s).destroyClosed = s.destroyClosed ∧
    (joinDestroys s).pendingCreates = s.pendingCreates ∧
    (joinDestroys s).nextId = s.nextId := by
  obtain ⟨cw, dw, cc, dc, p, q, pd, nid, dd⟩ := s
  rw [joinDestroys_eq]
  exact ⟨rfl, rfl, rfl, rfl, rfl, rfl, rfl⟩

/-- C2: `stop` performs its shutdown in order.  It is definitionally the
composition of the four phases; after phase 1 the creation pool is closed
and every already-submitted construction has finished; the drain phase
empties the ready queue, queuing one destruction task per remaining object
at the end of the destruction pipeline while running none of them (the
destroyed record is untouched); then the destruction pool is closed, every
submitted destruction runs, and the resulting state is what `stop`
returns. -/
theorem stop_protocol_order (outs : List Bool) (s : PState)
    (hcw : s.createWidth ≠ 0) (hdc : s.destroyClosed = false)
    (hlen : outs.length = s.pendingCreates) :
    stop outs s =
      joinDestroys { drainQueue (joinCreates outs { s with createClosed := true })
        with destroyClosed := true } ∧
    (joinCreates outs { s with createClosed := true }).createClosed = true ∧
    (joinCreates outs { s with createClosed := true }).pendingCreates = 0 ∧
    (drainQueue (joinCreates outs { s with createClosed := true })).queue = [] ∧
    (drainQueue (joinCreates outs { s with createClosed := true })).pendingDestroys
      = (joinCreates outs { s with createClosed := true }).pendingDestroys ++
        (joinCreates outs { s with createClosed := true }).queue ∧
    (drainQueue (joinCreates outs { s with createClosed := true })).destroyed
      = (joinCreates outs { s with createClosed := true }).destroyed ∧
    (stop outs s).pendingDestroys = [] ∧
    (stop outs s).destroyClosed = true ∧
    (stop outs s).destroyed
      = (drainQueue (joinCreates outs { s with createClosed := true })).destroyed
        ++ (drainQueue (joinCreates outs { s with createClosed := true })).pendingDestroys := by
  have hdc2 : (joinCreates outs { s with createClosed := true }).destroyClosed
      = false := by
    rw [joinCreates_pres PState.destroyClosed runCreateTask_destroyClosed]
    exact hdc
  have hdrain := drainQueue_spec (joinCreates outs { s with createClosed := true })
    hdc2
  have hjd := joinDestroys_spec
    { drainQueue (joinCreates outs { s with createClosed := true })
      with destroyClosed := true }
  refine ⟨rfl, ?_, ?_, hdrain.1, hdrain.2.1, hdrain.2.2.1, ?_, ?_, ?_⟩
  · rw [joinCreates_pres PState.createClosed runCreateTask_createClosed]
  · rw [joinCreates_pendingCreates outs _ (by exact hcw)]
    show s.pendingCreates - outs.length = 0
    omega
  · exact hjd.1
  · show (joinDestroys _).destroyClosed = true
    rw [hjd.2.2.2.2.1]
  · exact hjd.2.1

/-- Witness for C2 at a concrete running state with one pending construction
and a nonempty queue. -/
theorem stop_protocol_order_witness :
    ((⟨1, 1, false, false, 1, [0], [], 1, []⟩ : PState).createWidth ≠ 0 ∧
      (⟨1, 1, false, false, 1, [0], [], 1, []⟩ : PState).destroyClosed = false ∧
      [true].length = (⟨1, 1, false, false, 1, [0], [], 1, []⟩ : PState).pendingCreates) ∧
    (stop [true] ⟨1, 1, false, false, 1, [0], [], 1, []⟩ =
      joinDestroys { drainQueue (joinCreates [true]
        { (⟨1, 1, false, false, 1, [0], [], 1, []⟩ : PState) with createClosed := true })
        with destroyClosed := true } ∧
    (joinCreates [true] { (⟨1, 1, false, false, 1, [0], [], 1, []⟩ : PState) with
      createClosed := true }).createClosed = true ∧
    (joinCreates [true] { (⟨1, 1, false, false, 1, [0], [], 1, []⟩ : PState) with
      createClosed := true }).pendingCreates = 0 ∧
    (drainQueue (joinCreates [true] { (⟨1, 1, false, false, 1, [0], [], 1, []⟩ : PState)
      with createClosed := true })).queue = [] ∧
    (drainQueue (joinCreates [true] { (⟨1, 1, false, false, 1, [0], [], 1, []⟩ : PState)
      with createClosed := true })).pendingDestroys
      = (joinCreates [true] { (⟨1, 1, false, false, 1, [0], [], 1, []⟩ : PState) with
        createClosed := true }).pendingDestroys ++
        (joinCreates [true] { (⟨1, 1, false, false, 1, [0], [], 1, []⟩ : PState) with
        createClosed := true }).queue ∧
    (drainQueue (joinCreates [true] { (⟨1, 1, false, false, 1, [0], [], 1, []⟩ : PState)
      with createClosed := true })).destroyed
      = (joinCreates [true] { (⟨1, 1, false, false, 1, [0], [], 1, []⟩ : PState) with
        createClosed := true }).destroyed ∧
    (stop [true] ⟨1, 1, false, false, 1, [0], [], 1, []⟩).pendingDestroys = [] ∧
    (stop [true] ⟨1, 1, false, false, 1, [0], [], 1, []⟩).destroyClosed = true ∧
    (stop [true] ⟨1, 1, false, false, 1, [0], [], 1, []⟩).destroyed
      = (drainQueue (joinCreates [true] { (⟨1, 1, false, false, 1, [0], [], 1, []⟩ :
        PState) with createClosed := true })).destroyed
        ++ (drainQueue (joinCreates [true] { (⟨1, 1, false, false, 1, [0], [], 1, []⟩ :
        PState) with createClosed := true })).pendingDestroys) :=
  ⟨⟨by decide, by decide, by decide⟩,
    stop_protocol_order [true] ⟨1, 1, false, false, 1, [0], [], 1, []⟩
      (by decide) (by decide) (by decide)⟩

end Precalculator

namespace Precalculator

/-- C3: with the creation pool open and the ready queue nonempty, `get`
first submits exactly one replenishing construction task (unconditionally —
here the queue already holds `o :: rest`) and then pops and returns exactly
the one item `o`; nothing else in the state changes. -/
theorem get_replenishes_then_pops (s : PState) (o : Nat) (rest : List Nat)
    (hcc : s.createClosed = false) (hq : s.queue = o :: rest) :
    get s = Except.ok (some (o,
      { s with pendingCreates := s.pendingCreates + 1, queue := rest })) := by
  simp [get, precalc, hcc, hq]

/-- Witness for C3 at a state whose queue already holds an item. -/
theorem get_replenishes_then_pops_witness :
    (⟨2, 1, false, false, 1, [0], [], 1, []⟩ : PState).createClosed = false ∧
    (⟨2, 1, false, false, 1, [0], [], 1, []⟩ : PState).queue = [0] ∧
    get ⟨2, 1, false, false, 1, [0], [], 1, []⟩ = Except.ok (some (0,
      { (⟨2, 1, false, false, 1, [0], [], 1, []⟩ : PState) with
        pendingCreates := (⟨2, 1, false, false, 1, [0], [], 1, []⟩ : PState).pendingCreates + 1,
        queue := [] })) :=
  ⟨by decide, by decide,
    get_replenishes_then_pops ⟨2, 1, false, false, 1, [0], [], 1, []⟩ 0 []
      (by decide) (by decide)⟩

/-- C4: the steady-state invariant.  `create` establishes
`pendingCreates + queue.length = N` (with `N` seed submissions and an empty
queue), and every `get` that returns preserves it: the one popped item is
balanced by the one replenishing construction submission. -/
theorem steady_state_invariant (N m : Nat) :
    (create N m).pendingCreates + (create N m).queue.length = N ∧
    ∀ (s s' : PState) (o : Nat),
      s.pendingCreates + s.queue.length = N →
      get s = Except.ok (some (o, s')) →
      s'.pendingCreates + s'.queue.length = N := by
  constructor
  · rw [create_eq]
    simp
  · intro s s' o hsum hget
    by_cases hcc : s.createClosed = true
    · simp [get, precalc, hcc] at hget
    · rw [Bool.not_eq_true] at hcc
      cases hq : s.queue with
      | nil => simp [get, precalc, hcc, hq] at hget
      | cons a rest =>
        simp [get, precalc, hcc, hq] at hget
        obtain ⟨hao, hs'⟩ := hget
        rw [← hs']
        dsimp only
        rw [hq] at hsum
        simp only [List.length_cons] at hsum ⊢
        omega

/-- Witness for C4 at `N = 2`: a state with one pending construction and one
queued object, on which `get` returns. -/
theorem steady_state_invariant_witness :
    (⟨2, 1, false, false, 1, [0], [], 1, []⟩ : PState).pendingCreates +
      (⟨2, 1, false, false, 1, [0], [], 1, []⟩ : PState).queue.length = 2 ∧
    get ⟨2, 1, false, false, 1, [0], [], 1, []⟩ =
      Except.ok (some (0, ⟨2, 1, false, false, 2, [], [], 1, []⟩)) ∧
    (⟨2, 1, false, false, 2, [], [], 1, []⟩ : PState).pendingCreates +
      (⟨2, 1, false, false, 2, [], [], 1, []⟩ : PState).queue.length = 2 :=
  ⟨by decide, by rfl,
    (steady_state_invariant 2 1).2 ⟨2, 1, false, false, 1, [0], [], 1, []⟩
      ⟨2, 1, false, false, 2, [], [], 1, []⟩ 0 (by decide) (by rfl)⟩

/-- C5: `create n m` allocates a creation pool of width `n` and a
destruction pool of width `m`, both open (a running instance), an empty
ready queue, and has submitted exactly `n` construction tasks; nothing has
been constructed or destroyed yet. -/
theorem create_allocates_and_seeds (n m : Nat) :
    (create n m).createWidth = n ∧ (create n m).destroyWidth = m ∧
    (create n m).createClosed = false ∧ (create n m).destroyClosed = false ∧
    (create n m).queue = [] ∧ (create n m).pendingCreates = n ∧
    (create n m).pendingDestroys = [] ∧ (create n m).nextId = 0 ∧
    (create n m).destroyed = [] := by
  rw [create_eq]
  exact ⟨rfl, rfl, rfl, rfl, rfl, rfl, rfl, rfl, rfl⟩

/-- C6: with the destruction pool open, `destroy obj` submits exactly one
destruction task carrying `obj` (appended to the destruction pipeline) and
returns; no destructor has run (the destroyed record is unchanged) and the
ready queue and creation pipeline are untouched. -/
theorem destroy_submits_one_task (s : PState) (obj : Nat)
    (h : s.destroyClosed = false) :
    ∃ s', destroy obj s = Except.ok s' ∧
      s'.pendingDestroys = s.pendingDestroys ++ [obj] ∧
      s'.destroyed = s.destroyed ∧
      s'.queue = s.queue ∧
      s'.pendingCreates = s.pendingCreates ∧
      s'.createClosed = s.createClosed ∧
      s'.destroyClosed = s.destroyClosed ∧
      s'.createWidth = s.createWidth ∧
      s'.nextId = s.nextId :=
  ⟨{ s with pendingDestroys := s.pendingDestroys ++ [obj] },
    by simp [destroy, h], rfl, rfl, rfl, rfl, rfl, rfl, rfl, rfl⟩

/-- Witness for C6 at a concrete running state. -/
theorem destroy_submits_one_task_witness :
    (⟨2, 1, false, false, 1, [1], [], 2, [0]⟩ : PState).destroyClosed = false ∧
    ∃ s', destroy 7 ⟨2, 1, false, false, 1, [1], [], 2, [0]⟩ = Except.ok s' ∧
      s'.pendingDestroys =
        (⟨2, 1, false, false, 1, [1], [], 2, [0]⟩ : PState).pendingDestroys ++ [7] ∧
      s'.destroyed = (⟨2, 1, false, false, 1, [1], [], 2, [0]⟩ : PState).destroyed ∧
      s'.queue = (⟨2, 1, false, false, 1, [1], [], 2, [0]⟩ : PState).queue ∧
      s'.pendingCreates =
        (⟨2, 1, false, false, 1, [1], [], 2, [0]⟩ : PState).pendingCreates ∧
      s'.createClosed =
        (⟨2, 1, false, false, 1, [1], [], 2, [0]⟩ : PState).createClosed ∧
      s'.destroyClosed =
        (⟨2, 1, false, false, 1, [1], [], 2, [0]⟩ : PState).destroyClosed ∧
      s'.createWidth =
        (⟨2, 1, false, false, 1, [1], [], 2, [0]⟩ : PState).createWidth ∧
      s'.nextId = (⟨2, 1, false, false, 1, [1], [], 2, [0]⟩ : PState).nextId :=
  ⟨by decide,
    destroy_submits_one_task ⟨2, 1, false, false, 1, [1], [], 2, [0]⟩ 7 (by decide)⟩

end Precalculator

namespace Precalculator

theorem joinCreates_width_zero : ∀ (outs : List Bool) (t : PState),
    t.createWidth = 0 → joinCreates outs t = t
  | [], _, _ => rfl
  | ok :: outs, t, h => by
    show joinCreates outs (runCreateTask ok t) = t
    rw [show runCreateTask ok t = t from by simp [runCreateTask, h]]
    exact joinCreates_width_zero outs t h

/-- C7 (spec-modelled Execution Pool): `create` does not guard against a
creation width of 0.  The result is a running instance (neither pool
closed) with an empty queue and no seed submissions; since a width-0 pool
has no workers, no number of worker steps can ever put an object on the
queue, so every `get` submits its replenishment and then blocks forever
(`Except.ok none`). -/
theorem create_zero_width_degenerate (m : Nat) :
    (create 0 m).createClosed = false ∧ (create 0 m).destroyClosed = false ∧
    (create 0 m).queue = [] ∧ (create 0 m).pendingCreates = 0 ∧
    ∀ outs : List Bool, get (joinCreates outs (create 0 m)) = Except.ok none := by
  rw [create_eq]
  refine ⟨rfl, rfl, rfl, rfl, ?_⟩
  intro outs
  rw [joinCreates_width_zero outs _ rfl]
  rfl

/-- C8: a constructor failure is swallowed.  When a pending construction
task runs and the constructor raises, the only change is that the task is
consumed: nothing is pushed onto the ready queue, no object is recorded as
constructed, no error value is produced, and no retry is submitted; the
supply `pendingCreates + queue.length` permanently shrinks by one.  A later
`get`'s replenishing `_precalc` submission is what restores it. -/
theorem constructor_failure_swallowed (s : PState)
    (hcw : s.createWidth ≠ 0) (hp : s.pendingCreates ≠ 0) :
    runCreateTask false s = { s with pendingCreates := s.pendingCreates - 1 } ∧
    (runCreateTask false s).queue = s.queue ∧
    (runCreateTask false s).nextId = s.nextId ∧
    (runCreateTask false s).pendingCreates + (runCreateTask false s).queue.length + 1
      = s.pendingCreates + s.queue.length ∧
    (s.createClosed = false →
      precalc s = Except.ok { s with pendingCreates := s.pendingCreates + 1 }) := by
  have hrun : runCreateTask false s =
      { s with pendingCreates := s.pendingCreates - 1 } := by
    simp [runCreateTask, hcw, hp]
  refine ⟨hrun, by rw [hrun], by rw [hrun], ?_, fun hcc => by simp [precalc, hcc]⟩
  rw [hrun]
  dsimp only
  omega

/-- Witness for C8 at a state with two pending constructions. -/
theorem constructor_failure_swallowed_witness :
    (⟨2, 1, false, false, 2, [0], [], 1, []⟩ : PState).createWidth ≠ 0 ∧
    (⟨2, 1, false, false, 2, [0], [], 1, []⟩ : PState).pendingCreates ≠ 0 ∧
    (runCreateTask false ⟨2, 1, false, false, 2, [0], [], 1, []⟩ =
      { (⟨2, 1, false, false, 2, [0], [], 1, []⟩ : PState) with
        pendingCreates :=
          (⟨2, 1, false, false, 2, [0], [], 1, []⟩ : PState).pendingCreates - 1 } ∧
    (runCreateTask false ⟨2, 1, false, false, 2, [0], [], 1, []⟩).queue =
      (⟨2, 1, false, false, 2, [0], [], 1, []⟩ : PState).queue ∧
    (runCreateTask false ⟨2, 1, false, false, 2, [0], [], 1, []⟩).nextId =
      (⟨2, 1, false, false, 2, [0], [], 1, []⟩ : PState).nextId ∧
    (runCreateTask false ⟨2, 1, false, false, 2, [0], [], 1, []⟩).pendingCreates +
      (runCreateTask false ⟨2, 1, false, false, 2, [0], [], 1, []⟩).queue.length + 1
      = (⟨2, 1, false, false, 2, [0], [], 1, []⟩ : PState).pendingCreates +
        (⟨2, 1, false, false, 2, [0], [], 1, []⟩ : PState).queue.length ∧
    ((⟨2, 1, false, false, 2, [0], [], 1, []⟩ : PState).createClosed = false →
      precalc ⟨2, 1, false, false, 2, [0], [], 1, []⟩ = Except.ok
        { (⟨2, 1, false, false, 2, [0], [], 1, []⟩ : PState) with
          pendingCreates :=
            (⟨2, 1, false, false, 2, [0], [], 1, []⟩ : PState).pendingCreates + 1 })) :=
  ⟨by decide, by decide,
    constructor_failure_swallowed ⟨2, 1, false, false, 2, [0], [], 1, []⟩
      (by decide) (by decide)⟩

/-- Model of the default Python destructor argument `lambda x: None`: it
takes the object and returns `None`, doing nothing. -/
def defaultDestructor : Nat → Option Nat := fun _ => none

/-- Resolution of the `destructor` parameter of `Precalculator.create`:
`none` means the caller omitted it, so the default `lambda x: None` is
used.  (The destructor function value does not influence the coordinator
state in this embedding; destructor runs are the abstract
`runDestroyTask`.) -/
def resolveDestructor (d : Option (Nat → Option Nat)) : Nat → Option Nat :=
  d.getD defaultDestructor

/-- Resolution of the `num_create_threads` parameter (default 2). -/
def resolveNumCreateThreads (a : Option Nat) : Nat :=
  a.getD 2

/-- Resolution of the `num_destroy_threads` parameter (default 1). -/
def resolveNumDestroyThreads (a : Option Nat) : Nat :=
  a.getD 1

/-- Embedding of a Python call to `Precalculator.create` in which any of the
optional arguments may be omitted (`none`). -/
def createCall (_dtor : Option (Nat → Option Nat)) (nc nd : Option Nat) : PState :=
  create (resolveNumCreateThreads nc) (resolveNumDestroyThreads nd)

/-- C9: when the optional arguments of `create` are omitted, the destructor
defaults to the no-op `lambda x: None`, `num_create_threads` defaults to 2
and `num_destroy_threads` defaults to 1, so the call behaves as
`create 2 1`. -/
theorem create_defaults :
    resolveNumCreateThreads none = 2 ∧
    resolveNumDestroyThreads none = 1 ∧
    resolveDestructor none = defaultDestructor ∧
    (∀ x, resolveDestructor none x = none) ∧
    createCall none none none = create 2 1 :=
  ⟨rfl, rfl, rfl, fun _ => rfl, rfl⟩

/-- C10: after `stop` has returned, both pools are closed, and both `get`
and `destroy` fail synchronously with the pool's submission error rather
than hanging or dropping the task silently. -/
theorem post_stop_calls_raise (outs : List Bool) (s : PState) :
    (stop outs s).createClosed = true ∧
    (stop outs s).destroyClosed = true ∧
    get (stop outs s) = Except.error "ValueError: Pool not running" ∧
    ∀ obj, destroy obj (stop outs s) =
      Except.error "ValueError: Pool not running" := by
  have h1 := stop_createClosed outs s
  have h2 := stop_destroyClosed outs s
  refine ⟨h1, h2, ?_, fun obj => ?_⟩
  · simp [get, precalc, h1]
  · simp [destroy, h2]

end Precalculator
